import Mathlib

/-!
Verification of the neoball repository's ball-overlay system against its
specification. The code composes a rendering library (three.js) and a physics
library (cannon-es); the library internals (the integrator `world.step`, the
raycaster, `Math.sin`/`Math.cos`/`Math.random`, canvas pixel IO) are external
to the repository and are modelled as explicit parameters/oracles, while every
piece of repository code relevant to the claims (`src/js/balls-overlay.js` and
the unnamed `NeoballPhysics` file) is embedded as executable definitions over
exact rationals.
-/

namespace Neoball

/-- cannon-es `Vec3` / three.js `Vector3`, with exact rational components. -/
structure Vec3 where
  x : ℚ
  y : ℚ
  z : ℚ
deriving DecidableEq, Repr

/-- A quaternion (cannon-es `Quaternion` / three.js `Quaternion`). -/
structure Quat where
  qx : ℚ
  qy : ℚ
  qz : ℚ
  qw : ℚ
deriving DecidableEq, Repr

/-- A collision shape attached to a body (`CANNON.Sphere` / `CANNON.Box`,
the box given by its half extents). -/
inductive Shape where
  | sphere (radius : ℚ)
  | box (hx hy hz : ℚ)
deriving DecidableEq, Repr

/-- A cannon-es rigid body: the fields of `CANNON.Body` the claims speak
about. -/
structure Body where
  mass : ℚ
  position : Vec3 := ⟨0, 0, 0⟩
  velocity : Vec3 := ⟨0, 0, 0⟩
  angularVelocity : Vec3 := ⟨0, 0, 0⟩
  quaternion : Quat := ⟨0, 0, 0, 1⟩
  shapes : List Shape := []
deriving DecidableEq, Repr

/-- The claim-relevant operations an animation frame performs, in the order
the frame performs them: `world.step(timeStep, dt, maxSubSteps)`, the copy of
body transforms into the render objects, and `renderer.render`. -/
inductive FrameEvent where
  | step (timeStep dt : ℚ) (maxSubSteps : ℕ)
  | sync
  | render
deriving DecidableEq, Repr

/-- The ambient math library: `Math.sin` and `Math.cos` are supplied by the
JS engine, not by this repository, so they enter the model as an arbitrary
environment. -/
structure MathEnv where
  sin : ℚ → ℚ
  cos : ℚ → ℚ

/-- The physics library's integrator `world.step`, external to the
repository: given the world gravity, the wall-clock delta passed to `step`,
and the ball bodies, it produces the ball bodies after the step.  All
theorems below hold for every such integrator. -/
abbrev StepFn := Vec3 → ℚ → List Body → List Body

/-- The integrator that moves nothing — exactly what `world.step` does when
the wall-clock delta is `0` (no substep is performed). -/
def idStep : StepFn := fun _ _ bodies => bodies

namespace Phys

/-- `NeoballPhysics.config` (constructor): the fields the claims use, with
the source's default values (`gravity: -15`, `throwForce: 30`, ...). -/
structure PConfig where
  ballCount : ℕ := 12
  ballRadius : ℚ := 45
  gravity : ℚ := -15
  restitution : ℚ := 7/10
  friction : ℚ := 3/10
  linearDamping : ℚ := 1/10
  angularDamping : ℚ := 3/10
  throwForce : ℚ := 30
deriving DecidableEq, Repr

/-- A three.js mesh: the transform fields `animate` synchronises. -/
structure Mesh where
  position : Vec3
  quaternion : Quat := ⟨0, 0, 0, 1⟩
deriving DecidableEq, Repr

/-- One entry of `NeoballPhysics.balls`: `{ mesh, body, index }`, with the
identities of the mesh in the scene and the body in the world (JS object
identity, modelled by a numeric id). -/
structure PBall where
  mesh : Mesh
  body : Body
  index : ℕ
  meshId : ℕ := 0
  bodyId : ℕ := 0
deriving DecidableEq, Repr

/-- The mutable state of a `NeoballPhysics` instance: the fields set in the
constructor and mutated by the event handlers and the public API.
`sceneMeshes`/`worldBodies` model scene membership (`scene.add/remove`) and
world membership (`world.addBody/removeBody`) by object id. -/
structure PState where
  config : PConfig := {}
  isMobile : Bool := false
  balls : List PBall := []
  gravity : Vec3 := ⟨0, 0, 0⟩
  selectedBall : Option ℕ := none
  isDragging : Bool := false
  lastMouse : ℚ × ℚ := (0, 0)
  lastMouseTime : ℚ := 0
  dragVelocity : ℚ × ℚ := (0, 0)
  sceneMeshes : List ℕ := []
  worldBodies : List ℕ := []
  nextId : ℕ := 0
deriving DecidableEq, Repr

/-- `NeoballPhysics.createBoundaries`: four static walls (floor, ceiling,
left, right), each `mass: 0` with one box shape of half the listed size. -/
def createBoundaries (width height : ℚ) : List Body :=
  let t : ℚ := 100
  [ { mass := 0, position := ⟨0, -height/2 - t/2, 0⟩,
      shapes := [Shape.box (width * 2 / 2) (t / 2) (200 / 2)] },
    { mass := 0, position := ⟨0, height/2 + t/2, 0⟩,
      shapes := [Shape.box (width * 2 / 2) (t / 2) (200 / 2)] },
    { mass := 0, position := ⟨-width/2 - t/2, 0, 0⟩,
      shapes := [Shape.box (t / 2) (height * 2 / 2) (200 / 2)] },
    { mass := 0, position := ⟨width/2 + t/2, 0, 0⟩,
      shapes := [Shape.box (t / 2) (height * 2 / 2) (200 / 2)] } ]

/-- `NeoballPhysics.createBalls`: `ballCount` balls; `rnd i k` is the k-th
`Math.random()` draw made for ball `i` (an external oracle).  Each ball gets
a mesh at the sampled position, and a body of mass 1 with one sphere shape
of radius `config.ballRadius`, the sampled position, and random initial
velocity and spin, exactly as the source computes them. -/
def createBalls (cfg : PConfig) (width height : ℚ) (rnd : ℕ → ℕ → ℚ) : List PBall :=
  (List.range cfg.ballCount).map fun i =>
    let x := (rnd i 0 - 1/2) * width * (7/10)
    let y := rnd i 1 * height * (4/10) + height * (1/10) - height/2 + height/2
    let z : ℚ := 0
    { mesh := { position := ⟨x, y, z⟩ },
      body := { mass := 1,
                position := ⟨x, y, z⟩,
                velocity := ⟨(rnd i 2 - 1/2) * 80, (rnd i 3 - 1/2) * 40, 0⟩,
                angularVelocity := ⟨(rnd i 4 - 1/2) * 3, (rnd i 5 - 1/2) * 3,
                                    (rnd i 6 - 1/2) * 3⟩,
                shapes := [Shape.sphere cfg.ballRadius] },
      index := i, meshId := i, bodyId := i }

/-- Replace ball `i` by `f` applied to it (in-place mutation of one entry of
`this.balls` in the source). -/
def setBall (balls : List PBall) (i : ℕ) (f : PBall → PBall) : List PBall :=
  match balls[i]? with
  | some b => balls.set i (f b)
  | none => balls

/-- `NeoballPhysics.onPointerDown`.  `pos` is the pointer's screen position
(`getPointerPosition(...).screenX/screenY`); `hit` is the outcome of the
rendering library's raycast: `some i` when the ray hits ball `i`'s mesh.
On a hit the ball is selected, dragging starts, and the body's linear and
angular velocities are zeroed (the `wakeUp` call touches only the library's
sleep bookkeeping). -/
def onPointerDown (st : PState) (pos : ℚ × ℚ) (now : ℚ) (hit : Option ℕ) : PState :=
  let st := { st with lastMouse := pos, lastMouseTime := now }
  match hit with
  | none => st
  | some i =>
    { st with
      selectedBall := some i, isDragging := true,
      balls := setBall st.balls i fun b =>
        { b with body := { b.body with
            velocity := ⟨0, 0, 0⟩, angularVelocity := ⟨0, 0, 0⟩ } } }

/-- `NeoballPhysics.onPointerMove`: no-op unless dragging with a selected
ball; otherwise records the drag velocity from the pointer displacement and
sets the selected body's x/y velocity to `0.25` times its displacement from
the cursor. -/
def onPointerMove (st : PState) (pos : ℚ × ℚ) (now : ℚ) : PState :=
  match st.selectedBall with
  | none => st
  | some i =>
    if st.isDragging = false then st
    else
      let dt := max (now - st.lastMouseTime) 1
      { st with
        dragVelocity := ((pos.1 - st.lastMouse.1) / dt * 16,
                         (pos.2 - st.lastMouse.2) / dt * 16),
        lastMouse := pos, lastMouseTime := now,
        balls := setBall st.balls i fun b =>
          { b with body := { b.body with velocity :=
              ⟨(pos.1 - b.body.position.x) * (1/4),
               (pos.2 - b.body.position.y) * (1/4),
               b.body.velocity.z⟩ } } }

/-- The per-component clamp `Math.max(-50, Math.min(50, v))` of
`onPointerUp`. -/
def clamp50 (v : ℚ) : ℚ := max (-50) (min 50 v)

/-- `NeoballPhysics.onPointerUp`: if a drag is in progress, clamps the drag
velocity per component to `[-50, 50]`, multiplies by `config.throwForce` and
assigns it as the ball's velocity (plus spin, whose z part uses the random
draw `rz`); then unconditionally clears the selection, the dragging flag and
the drag velocity. -/
def onPointerUp (st : PState) (rz : ℚ) : PState :=
  let st' :=
    match st.selectedBall with
    | none => st
    | some i =>
      if st.isDragging = false then st
      else
        let vx := clamp50 st.dragVelocity.1
        let vy := clamp50 st.dragVelocity.2
        { st with balls := setBall st.balls i fun b =>
            { b with body := { b.body with
                velocity := ⟨vx * st.config.throwForce,
                             vy * st.config.throwForce, b.body.velocity.z⟩,
                angularVelocity := ⟨vy * (15/100), -vx * (15/100), (rz - 1/2) * 2⟩ } } }
  { st' with selectedBall := none, isDragging := false, dragVelocity := (0, 0) }

/-- `NeoballPhysics.onDeviceOrientation`: `gamma`/`beta` are `null`able event
fields.  Non-null events clamp gamma to `[-45, 45]`, offset and clamp beta,
and set gravity to `(gamma' * 0.4, min(config.gravity + beta' * 0.3, -3), 0)`;
null events return before touching gravity. -/
def onDeviceOrientation (st : PState) (gamma beta : Option ℚ) : PState :=
  match gamma, beta with
  | some g, some b =>
    let g' := max (-45) (min 45 g)
    let b' := max (-45) (min 45 (b - 45))
    let gravityX := g' * (4/10)
    let gravityY := st.config.gravity + b' * (3/10)
    { st with gravity := ⟨gravityX, min gravityY (-3), 0⟩ }
  | _, _ => st

/-- `NeoballPhysics.animate`, one frame: when `document.hidden` the frame
only re-arms `requestAnimationFrame` and returns; otherwise it steps the
world with the fixed timestep `1/60`, the measured `delta` and
`maxSubSteps = 2` on mobile / `3` on desktop, copies every body's position
and quaternion into its mesh, and renders.  The returned event list records
those three operations in the order the source performs them (the FPS
bookkeeping after the render touches no claim-relevant state and is
omitted). -/
def animate (stepFn : StepFn) (st : PState) (delta : ℚ) (hidden : Bool) :
    PState × List FrameEvent :=
  if hidden then (st, [])
  else
    let maxSubSteps : ℕ := if st.isMobile then 2 else 3
    let newBodies := stepFn st.gravity delta (st.balls.map (·.body))
    let stepped := List.zipWith (fun b nb => { b with body := nb }) st.balls newBodies
    let synced := stepped.map fun b =>
      { b with mesh := { b.mesh with
          position := b.body.position, quaternion := b.body.quaternion } }
    ({ st with balls := synced },
     [FrameEvent.step (1/60) delta maxSubSteps, FrameEvent.sync, FrameEvent.render])

/-- `NeoballPhysics.addBall`: builds a mesh and a body of mass 1 with one
sphere shape at a random x and `y = height / 3`, adds them to the scene and
the world, appends the ball, and returns `this.balls.length`. -/
def addBall (st : PState) (width height r : ℚ) : PState × ℕ :=
  let x := (r - 1/2) * width * (1/2)
  let y := height / 3
  let ball : PBall :=
    { mesh := { position := ⟨x, y, 0⟩ },
      body := { mass := 1, position := ⟨x, y, 0⟩,
                shapes := [Shape.sphere st.config.ballRadius] },
      index := st.balls.length, meshId := st.nextId, bodyId := st.nextId }
  let st' := { st with
    balls := st.balls ++ [ball],
    sceneMeshes := st.sceneMeshes ++ [ball.meshId],
    worldBodies := st.worldBodies ++ [ball.bodyId],
    nextId := st.nextId + 1 }
  (st', st'.balls.length)

/-- `NeoballPhysics.removeBall`: on a non-empty list pops the last ball,
removes its mesh from the scene and its body from the world (the dispose
calls free GPU resources and touch no modelled state), and returns the new
`this.balls.length`; on an empty list it returns `this.balls.length = 0`
without touching anything. -/
def removeBall (st : PState) : PState × ℕ :=
  match st.balls.getLast? with
  | none => (st, st.balls.length)
  | some ball =>
    let st' := { st with
      balls := st.balls.dropLast,
      sceneMeshes := st.sceneMeshes.erase ball.meshId,
      worldBodies := st.worldBodies.erase ball.bodyId }
    (st', st'.balls.length)

/-- `NeoballPhysics.getBallCount`. -/
def getBallCount (st : PState) : ℕ := st.balls.length

end Phys

namespace Overlay

/-- `BALL_TEXTURES.length`: the module-level texture list has six entries. -/
def ballTexturePathCount : ℕ := 6

/-- `BALLS_PER_TEXTURE`. -/
def ballsPerTexture : ℕ := 2

/-- The `options` object passed to the `NeoballBallsOverlay` constructor:
each claim-relevant option is either supplied or absent (`??` default). -/
structure OOptions where
  zOffset : Option ℚ := none
  ballCount : Option ℕ := none
  ballRadius : Option ℚ := none
  restitution : Option ℚ := none
  friction : Option ℚ := none
  linearDamping : Option ℚ := none
  angularDamping : Option ℚ := none
  oscGravity : Option ℚ := none
  velocityFromPositionScale : Option ℚ := none

/-- `NeoballBallsOverlay.config` after the constructor's defaulting. -/
structure OConfig where
  zOffset : ℚ
  ballCount : ℕ
  ballRadius : ℚ
  restitution : ℚ
  friction : ℚ
  linearDamping : ℚ
  angularDamping : ℚ
  oscGravity : ℚ
  velocityFromPositionScale : ℚ
deriving DecidableEq, Repr

/-- The constructor's `this.config = { ... }` defaulting: every `??` of the
source, with `defaultBallCount = BALL_TEXTURES.length * BALLS_PER_TEXTURE`. -/
def mkConfig (o : OOptions) : OConfig :=
  { zOffset := o.zOffset.getD 0
    ballCount := o.ballCount.getD (ballTexturePathCount * ballsPerTexture)
    ballRadius := o.ballRadius.getD 1
    restitution := o.restitution.getD (3/10)
    friction := o.friction.getD (1/2)
    linearDamping := o.linearDamping.getD (4/10)
    angularDamping := o.angularDamping.getD (3/10)
    oscGravity := o.oscGravity.getD (15/1000)
    velocityFromPositionScale := o.velocityFromPositionScale.getD (1/5) }

/-- The world settings `createPhysicsWorld` applies. -/
structure WorldInit where
  gravity : Vec3
  allowSleep : Bool
  iterations : ℕ
deriving DecidableEq, Repr

/-- `NeoballBallsOverlay.createPhysicsWorld`: gravity starts at `(0, 0, 0)`,
sleeping is disabled, ten solver iterations. -/
def createPhysicsWorld : WorldInit :=
  { gravity := ⟨0, 0, 0⟩, allowSleep := false, iterations := 10 }

/-- `NeoballBallsOverlay.createBoundaries`: six static walls (bottom, top,
left, right, back, front) around the viewport, each `mass: 0` with one box
shape of half the listed size. -/
def createBoundaries (cfg : OConfig) (vw vh : ℚ) : List Body :=
  let ballDiameter := cfg.ballRadius * 2
  let boxSize := ballDiameter * (3/2)
  let t := max boxSize ballDiameter * (11/10)
  let z := cfg.zOffset
  [ { mass := 0, position := ⟨0, -vh/2 - t/2, z⟩,
      shapes := [Shape.box (vw * 2 / 2) (t / 2) (t / 2)] },
    { mass := 0, position := ⟨0, vh/2 + t/2, z⟩,
      shapes := [Shape.box (vw * 2 / 2) (t / 2) (t / 2)] },
    { mass := 0, position := ⟨-vw/2 - t/2, 0, z⟩,
      shapes := [Shape.box (t / 2) (vh * 2 / 2) (t / 2)] },
    { mass := 0, position := ⟨vw/2 + t/2, 0, z⟩,
      shapes := [Shape.box (t / 2) (vh * 2 / 2) (t / 2)] },
    { mass := 0, position := ⟨0, 0, z - t⟩,
      shapes := [Shape.box (vw * 2 / 2) (vh * 2 / 2) (t / 2)] },
    { mass := 0, position := ⟨0, 0, z + t⟩,
      shapes := [Shape.box (vw * 2 / 2) (vh * 2 / 2) (t / 2)] } ]

/-- Swap entries `i` and `j` of a list, the destructuring assignment
`[seq[i], seq[j]] = [seq[j], seq[i]]` of `buildTextureSequence`. -/
def swapEntries (l : List ℕ) (i j : ℕ) : List ℕ :=
  match l[i]?, l[j]? with
  | some a, some b => (l.set i b).set j a
  | _, _ => l

/-- The Fisher–Yates pass of `buildTextureSequence`: for `i` from
`length - 1` down to `1`, swap entry `i` with entry `j`, where
`j = Math.floor(Math.random() * (i + 1))` is modelled by the oracle value
`rand i` reduced into `[0, i]`. -/
def fisherYates (rand : ℕ → ℕ) (l : List ℕ) : List ℕ :=
  (((List.range l.length).drop 1).reverse).foldl
    (fun acc i => swapEntries acc i (rand i % (i + 1))) l

/-- `NeoballBallsOverlay.buildTextureSequence`: two copies of every texture
index `0 … textures.length - 1`, then the random Fisher–Yates pass. -/
def buildTextureSequence (rand : ℕ → ℕ) (textureCount : ℕ) : List ℕ :=
  fisherYates rand ((List.range textureCount).flatMap fun texIdx =>
    List.replicate ballsPerTexture texIdx)

/-- `NeoballBallsOverlay.loadAllTextures`: one load attempt per
`BALL_TEXTURES` entry; a failed load resolves to `null` and the final
`.filter(Boolean)` drops it.  `results` is the per-entry outcome (texture
object id, or `none` on failure). -/
def loadAllTextures (results : List (Option ℕ)) : List ℕ :=
  results.filterMap id

/-- The texture lookup `this.textures[textureIndex] || this.textures[0]` of
`createBalls` (loaded textures are objects, hence truthy). -/
def pickTexture (texs : List ℕ) (i : ℕ) : Option ℕ :=
  match texs[i]? with
  | some t => some t
  | none => texs[0]?

/-- A three.js sprite: its position, its material's rotation, and the
texture its material maps. -/
structure Sprite where
  position : Vec3
  matRotation : ℚ := 0
  texture : Option ℕ := none
deriving DecidableEq, Repr

/-- One entry of `NeoballBallsOverlay.balls`:
`{ sprite, body, index, textureIndex }`. -/
structure OBall where
  sprite : Sprite
  body : Body
  index : ℕ
  textureIndex : ℕ
deriving DecidableEq, Repr

/-- The mutable state of a `NeoballBallsOverlay` instance touched by
`animate`. -/
structure OState where
  config : OConfig
  balls : List OBall := []
  t : ℚ := 0
  gravity : Vec3 := ⟨0, 0, 0⟩
  pointer : ℚ × ℚ := (0, 0)
  hasPointer : Bool := false
  pointerBox : Body := { mass := 0 }
deriving DecidableEq, Repr

/-- `NeoballBallsOverlay.createBalls`, with the library randomness as
oracles: `texs` is `this.textures` (texture object ids), `rand` drives the
shuffle, `posOracle i` is the position `getRandomPositionForBody` returns
for ball `i` (that helper rejection-samples `Math.random()` draws until the
ball clears its neighbours — the sampled outcome is the oracle's value), and
`velRand i` the two `Math.random()` draws of the velocity.  Creates
`min(config.ballCount, textureSequence.length)` balls; each ball has a
sprite and a body of mass 50 with one sphere shape of radius
`config.ballRadius`, placed at the sampled position at `z = zOffset`. -/
def createBalls (cfg : OConfig) (texs : List ℕ) (rand : ℕ → ℕ)
    (posOracle : ℕ → ℚ × ℚ) (velRand : ℕ → ℚ × ℚ) : List OBall :=
  let seq := buildTextureSequence rand texs.length
  let ballCount := min cfg.ballCount seq.length
  let z := cfg.zOffset
  (List.range ballCount).map fun i =>
    let x := (posOracle i).1
    let y := (posOracle i).2
    let textureIndex := seq.getD i 0
    { sprite := { position := ⟨x, y, z⟩, texture := pickTexture texs textureIndex },
      body := { mass := 50,
                position := ⟨x, y, z⟩,
                velocity := ⟨(-(1/2) + (velRand i).1) * x * 2 * cfg.velocityFromPositionScale,
                             (-(1/2) + (velRand i).2) * y * 2 * cfg.velocityFromPositionScale,
                             0⟩,
                shapes := [Shape.sphere cfg.ballRadius] },
      index := i, textureIndex := textureIndex }

/-- `NeoballBallsOverlay.animate`, one frame: clamps the measured delta to
`0.1`, steps the world with `(1/60, dt, 3)`, advances `this._t`, sets the
oscillating gravity, moves the kinematic pointer box, copies every body's
x/y position into its sprite (the sprite's z is pinned to `config.zOffset`)
and spins the sprite material, then renders.  The event list records the
step, the transform copy and the render in source order. -/
def animate (env : MathEnv) (stepFn : StepFn) (st : OState) (delta : ℚ) :
    OState × List FrameEvent :=
  let dt := min delta (1/10)
  let newBodies := stepFn st.gravity dt (st.balls.map (·.body))
  let stepped := List.zipWith (fun b nb => { b with body := nb }) st.balls newBodies
  let t' := st.t + dt
  let gravity' : Vec3 := ⟨env.sin ((1/2) * t') * st.config.oscGravity,
                          env.cos ((4/10) * t') * st.config.oscGravity, 0⟩
  let pointerBox' :=
    if st.hasPointer then
      { st.pointerBox with
        position := ⟨st.pointer.1, st.pointer.2, st.config.zOffset⟩,
        quaternion := ⟨env.sin t', env.cos t', 0, 0⟩ }
    else
      { st.pointerBox with position := ⟨99999, 99999, st.config.zOffset⟩ }
  let synced := stepped.map fun b =>
    { b with sprite := { b.sprite with
        position := ⟨b.body.position.x, b.body.position.y, st.config.zOffset⟩,
        matRotation := b.sprite.matRotation
          + (b.body.velocity.x + b.body.velocity.y) * (5/10000) } }
  ({ st with balls := synced, t := t', gravity := gravity', pointerBox := pointerBox' },
   [FrameEvent.step (1/60) dt 3, FrameEvent.sync, FrameEvent.render])

end Overlay

namespace Tex

/-- The pixel data of a texture's image: its dimensions and the alpha
channel at each pixel (`data[(y * sw + x) * 4 + 3]` of the drawn image). -/
structure Image where
  width : ℕ
  height : ℕ
  alpha : ℕ → ℕ → ℕ

/-- A texture as `normalizeBallTexture` receives it, with the
canvas-environment outcomes the code branches on: `ctx2dOk` is whether
`canvas.getContext('2d')` yields a context (one browser capability, probed
for the source and the output canvas alike), `pixelsOk` whether
`getImageData` succeeds rather than throwing (a tainted canvas throws). -/
structure SourceTexture where
  image : Option Image
  ctx2dOk : Bool := true
  pixelsOk : Bool := true

/-- The scan's running bounding box: `x0 = sw, y0 = sh, x1 = -1, y1 = -1`
initially. -/
structure BBox where
  x0 : ℤ
  y0 : ℤ
  x1 : ℤ
  y1 : ℤ
deriving DecidableEq, Repr

/-- `THRESH`. -/
def alphaThresh : ℕ := 8

/-- One iteration of the alpha scan: pixel `(x, y)` tightens the box when
its alpha exceeds the threshold (the source's four `if`s). -/
def bboxStep (img : Image) (st : BBox) (x y : ℕ) : BBox :=
  if alphaThresh < img.alpha x y then
    { x0 := if (x : ℤ) < st.x0 then (x : ℤ) else st.x0,
      y0 := if (y : ℤ) < st.y0 then (y : ℤ) else st.y0,
      x1 := if st.x1 < (x : ℤ) then (x : ℤ) else st.x1,
      y1 := if st.y1 < (y : ℤ) then (y : ℤ) else st.y1 }
  else st

/-- The inner loop `for (x = 0; x < sw; x++)` at row `y`. -/
def scanRow (img : Image) (y : ℕ) (xs : List ℕ) (s : BBox) : BBox :=
  xs.foldl (fun st x => bboxStep img st x y) s

/-- The outer loop `for (y = 0; y < sh; y++)`. -/
def scanRows (img : Image) (xs ys : List ℕ) (s : BBox) : BBox :=
  ys.foldl (fun st y => scanRow img y xs st) s

/-- The whole alpha scan of `normalizeBallTexture`. -/
def computeBBox (img : Image) : BBox :=
  scanRows img (List.range img.width) (List.range img.height)
    { x0 := img.width, y0 := img.height, x1 := -1, y1 := -1 }

/-- The output canvas a successful normalization draws: its size, the
source crop rectangle passed to `drawImage`, the destination rectangle, and
the `destination-in` circle mask. -/
structure CanvasTex where
  width : ℕ
  height : ℕ
  cropX : ℤ
  cropY : ℤ
  cropW : ℤ
  cropH : ℤ
  dx : ℚ
  dy : ℚ
  dw : ℚ
  dh : ℚ
  maskCx : ℚ
  maskCy : ℚ
  maskR : ℚ
deriving DecidableEq, Repr

/-- What `normalizeBallTexture` returns: the original texture object, or a
fresh `CanvasTexture`. -/
inductive NormTexture where
  | orig (src : SourceTexture)
  | canvas (c : CanvasTex)

/-- `TARGET_DIAMETER = Math.round(OUT * 0.86)`. -/
def targetDiameter : ℤ := round ((512 : ℚ) * (86/100))

/-- `NeoballBallsOverlay.normalizeBallTexture`, branch for branch: early
`return texture` on a missing image, zero size, unavailable 2d context,
unreadable pixels, or an empty bounding box; otherwise the squared,
edge-clamped crop, the scale to `TARGET_DIAMETER`, the centered destination
rectangle and the circle mask. -/
def normalizeBallTexture (src : SourceTexture) : NormTexture :=
  match src.image with
  | none => .orig src
  | some img =>
    let sw := img.width
    let sh := img.height
    if sw = 0 ∨ sh = 0 then .orig src
    else if src.ctx2dOk = false then .orig src
    else if src.pixelsOk = false then .orig src
    else
      let B := computeBBox img
      if B.x1 < B.x0 ∨ B.y1 < B.y0 then .orig src
      else
        let bw := B.x1 - B.x0 + 1
        let bh := B.y1 - B.y0 + 1
        let b := max bw bh
        let cx : ℚ := ((B.x0 + B.x1 : ℤ) : ℚ) / 2
        let cy : ℚ := ((B.y0 + B.y1 : ℤ) : ℚ) / 2
        let cropX := max 0 ⌊cx - (b : ℚ) / 2⌋
        let cropY := max 0 ⌊cy - (b : ℚ) / 2⌋
        let cropW := min ((sw : ℤ) - cropX) b
        let cropH := min ((sh : ℤ) - cropY) b
        let scale : ℚ := (targetDiameter : ℚ) / ((max cropW cropH : ℤ) : ℚ)
        let dw := (cropW : ℚ) * scale
        let dh := (cropH : ℚ) * scale
        .canvas { width := 512, height := 512,
                  cropX := cropX, cropY := cropY, cropW := cropW, cropH := cropH,
                  dx := (512 - dw) / 2, dy := (512 - dh) / 2, dw := dw, dh := dh,
                  maskCx := 512 / 2, maskCy := 512 / 2,
                  maskR := (targetDiameter : ℚ) / 2 }

/-- The crop rectangle of a normalization result (`none` when the original
texture was returned). -/
def cropRect : NormTexture → Option (ℤ × ℤ × ℤ × ℤ)
  | .orig _ => none
  | .canvas c => some (c.cropX, c.cropY, c.cropW, c.cropH)

end Tex

/-! ## Concrete fixtures used by witnesses and counterexamples -/

/-- A concrete math environment (any function pair works; the constant-zero
one keeps concrete evaluation trivial). -/
def zeroEnv : MathEnv := ⟨fun _ => 0, fun _ => 0⟩

/-- A concrete `NeoballPhysics` ball. -/
def sampleBall : Phys.PBall :=
  { mesh := { position := ⟨0, 0, 0⟩ }, body := { mass := 1 }, index := 0 }

/-- A concrete `NeoballPhysics` state holding one ball. -/
def sampleP : Phys.PState :=
  { balls := [sampleBall], sceneMeshes := [0], worldBodies := [0] }

/-- A concrete overlay state (default config, so `zOffset = 0`) whose one
ball's body sits at `z = 5` while its sprite starts elsewhere. -/
def c2State : Overlay.OState :=
  { config := Overlay.mkConfig {},
    balls := [ { sprite := { position := ⟨9, 9, 9⟩ },
                 body := { mass := 50, position := ⟨0, 0, 5⟩ },
                 index := 0, textureIndex := 0 } ] }

/-- The first ball `Overlay.createBalls` makes for the default config,
one loaded texture `[5]`, the constant-zero shuffle oracle, position oracle
`(1, 2)` and zero velocity draws. -/
def c7OBall : Overlay.OBall :=
  { sprite := { position := ⟨1, 2, 0⟩, texture := some 5 },
    body := { mass := 50, position := ⟨1, 2, 0⟩,
              velocity := ⟨-(1/5), -(2/5), 0⟩, shapes := [Shape.sphere 1] },
    index := 0, textureIndex := 0 }

/-- The first ball `Phys.createBalls` makes for the default config, a 1×1
viewport and the constant-zero random oracle. -/
def c7PBall : Phys.PBall :=
  { mesh := { position := ⟨-(7/20), 1/10, 0⟩ },
    body := { mass := 1, position := ⟨-(7/20), 1/10, 0⟩,
              velocity := ⟨-40, -20, 0⟩,
              angularVelocity := ⟨-(3/2), -(3/2), -(3/2)⟩,
              shapes := [Shape.sphere 45] },
    index := 0, meshId := 0, bodyId := 0 }

/-- A 3×1 fully-opaque image: its opaque bounding box is 3 wide and 1
tall. -/
def c3Image : Tex.Image := ⟨3, 1, fun _ _ => 255⟩

/-- The 3×1 image as a loadable texture with a working canvas
environment. -/
def c3Src : Tex.SourceTexture := ⟨some c3Image, true, true⟩

/-- The ball of `c2State` as `animate` leaves it: the body untouched (the
delta is 0, so the integrator moves nothing), the sprite copied from the
body's x/y with z pinned to `zOffset = 0`. -/
def c2ResultBall : Overlay.OBall :=
  { sprite := { position := ⟨0, 0, 0⟩ },
    body := { mass := 50, position := ⟨0, 0, 5⟩ },
    index := 0, textureIndex := 0 }

lemma animate_c2State :
    (Overlay.animate zeroEnv idStep c2State 0).1.balls = [c2ResultBall] := by
  norm_num [Overlay.animate, c2State, zeroEnv, idStep, Overlay.mkConfig, c2ResultBall]

lemma animate_sampleP :
    (Phys.animate idStep sampleP 0 false).1.balls = [sampleBall] := by
  norm_num [Phys.animate, sampleP, sampleBall, idStep]

lemma createBalls_c7_eval :
    (Overlay.createBalls (Overlay.mkConfig {}) [5] (fun _ => 0)
      (fun _ => (1, 2)) (fun _ => (0, 0)))[0]? = some c7OBall := by
  norm_num [Overlay.createBalls, Overlay.buildTextureSequence, Overlay.fisherYates,
    Overlay.swapEntries, Overlay.pickTexture, Overlay.mkConfig, Overlay.ballsPerTexture,
    Overlay.ballTexturePathCount, c7OBall, List.range_succ, List.getElem?_range]

lemma physCreateBalls_c7_eval :
    (Phys.createBalls {} 1 1 (fun _ _ => 0))[0]? = some c7PBall := by
  norm_num [Phys.createBalls, c7PBall, List.range_succ]

/-! ### The alpha scan computes the opaque bounding box -/

lemma bboxStep_mono (img : Tex.Image) (s : Tex.BBox) (x y : ℕ) :
    (Tex.bboxStep img s x y).x0 ≤ s.x0 ∧ (Tex.bboxStep img s x y).y0 ≤ s.y0 ∧
    s.x1 ≤ (Tex.bboxStep img s x y).x1 ∧ s.y1 ≤ (Tex.bboxStep img s x y).y1 := by
  unfold Tex.bboxStep
  by_cases h : Tex.alphaThresh < img.alpha x y
  · rw [if_pos h]
    refine ⟨?_, ?_, ?_, ?_⟩ <;> (dsimp only; split <;> omega)
  · rw [if_neg h]
    exact ⟨le_refl _, le_refl _, le_refl _, le_refl _⟩

lemma scanRow_mono (img : Tex.Image) (y : ℕ) : ∀ (xs : List ℕ) (s : Tex.BBox),
    (Tex.scanRow img y xs s).x0 ≤ s.x0 ∧ (Tex.scanRow img y xs s).y0 ≤ s.y0 ∧
    s.x1 ≤ (Tex.scanRow img y xs s).x1 ∧ s.y1 ≤ (Tex.scanRow img y xs s).y1 := by
  intro xs
  induction xs with
  | nil => intro s; exact ⟨le_refl _, le_refl _, le_refl _, le_refl _⟩
  | cons a tl ih =>
    intro s
    have h1 := bboxStep_mono img s a y
    have h2 := ih (Tex.bboxStep img s a y)
    simp only [Tex.scanRow, List.foldl_cons] at h2 ⊢
    exact ⟨le_trans h2.1 h1.1, le_trans h2.2.1 h1.2.1,
           le_trans h1.2.2.1 h2.2.2.1, le_trans h1.2.2.2 h2.2.2.2⟩

lemma scanRows_mono (img : Tex.Image) (xs : List ℕ) : ∀ (ys : List ℕ) (s : Tex.BBox),
    (Tex.scanRows img xs ys s).x0 ≤ s.x0 ∧ (Tex.scanRows img xs ys s).y0 ≤ s.y0 ∧
    s.x1 ≤ (Tex.scanRows img xs ys s).x1 ∧ s.y1 ≤ (Tex.scanRows img xs ys s).y1 := by
  intro ys
  induction ys with
  | nil => intro s; exact ⟨le_refl _, le_refl _, le_refl _, le_refl _⟩
  | cons b tl ih =>
    intro s
    have h1 := scanRow_mono img b xs s
    have h2 := ih (Tex.scanRow img b xs s)
    simp only [Tex.scanRows, List.foldl_cons] at h2 ⊢
    exact ⟨le_trans h2.1 h1.1, le_trans h2.2.1 h1.2.1,
           le_trans h1.2.2.1 h2.2.2.1, le_trans h1.2.2.2 h2.2.2.2⟩

lemma bboxStep_bounds (img : Tex.Image) (s : Tex.BBox) (x y : ℕ)
    (h : Tex.alphaThresh < img.alpha x y) :
    (Tex.bboxStep img s x y).x0 ≤ x ∧ (x : ℤ) ≤ (Tex.bboxStep img s x y).x1 ∧
    (Tex.bboxStep img s x y).y0 ≤ y ∧ (y : ℤ) ≤ (Tex.bboxStep img s x y).y1 := by
  unfold Tex.bboxStep
  rw [if_pos h]
  refine ⟨?_, ?_, ?_, ?_⟩ <;> (dsimp only; split <;> omega)

lemma scanRow_bounds (img : Tex.Image) (y : ℕ) : ∀ (xs : List ℕ) (s : Tex.BBox)
    (x : ℕ), x ∈ xs → Tex.alphaThresh < img.alpha x y →
    (Tex.scanRow img y xs s).x0 ≤ x ∧ (x : ℤ) ≤ (Tex.scanRow img y xs s).x1 ∧
    (Tex.scanRow img y xs s).y0 ≤ y ∧ (y : ℤ) ≤ (Tex.scanRow img y xs s).y1 := by
  intro xs
  induction xs with
  | nil => intro s x hx _; exact absurd hx (List.not_mem_nil x)
  | cons a tl ih =>
    intro s x hx hop
    simp only [Tex.scanRow, List.foldl_cons]
    rcases List.mem_cons.mp hx with rfl | hx'
    · have hstep := bboxStep_bounds img s x y hop
      have hmono := scanRow_mono img y tl (Tex.bboxStep img s x y)
      simp only [Tex.scanRow] at hmono
      exact ⟨le_trans hmono.1 hstep.1, le_trans hstep.2.1 hmono.2.2.1,
             le_trans hmono.2.1 hstep.2.2.1, le_trans hstep.2.2.2 hmono.2.2.2⟩
    · have h := ih (Tex.bboxStep img s a y) x hx' hop
      simpa only [Tex.scanRow] using h

lemma scanRows_bounds (img : Tex.Image) (xs : List ℕ) : ∀ (ys : List ℕ) (s : Tex.BBox)
    (x y : ℕ), x ∈ xs → y ∈ ys → Tex.alphaThresh < img.alpha x y →
    (Tex.scanRows img xs ys s).x0 ≤ x ∧ (x : ℤ) ≤ (Tex.scanRows img xs ys s).x1 ∧
    (Tex.scanRows img xs ys s).y0 ≤ y ∧ (y : ℤ) ≤ (Tex.scanRows img xs ys s).y1 := by
  intro ys
  induction ys with
  | nil => intro s x y _ hy _; exact absurd hy (List.not_mem_nil y)
  | cons b tl ih =>
    intro s x y hx hy hop
    simp only [Tex.scanRows, List.foldl_cons]
    rcases List.mem_cons.mp hy with rfl | hy'
    · have hrow := scanRow_bounds img y xs s x hx hop
      have hmono := scanRows_mono img xs tl (Tex.scanRow img y xs s)
      simp only [Tex.scanRows] at hmono
      exact ⟨le_trans hmono.1 hrow.1, le_trans hrow.2.1 hmono.2.2.1,
             le_trans hmono.2.1 hrow.2.2.1, le_trans hrow.2.2.2 hmono.2.2.2⟩
    · have h := ih (Tex.scanRow img b xs s) x y hx hy' hop
      simpa only [Tex.scanRows] using h

lemma bboxStep_attain (img : Tex.Image) (s : Tex.BBox) (x y : ℕ) :
    ((Tex.bboxStep img s x y).x0 = s.x0 ∨
      (Tex.alphaThresh < img.alpha x y ∧ (Tex.bboxStep img s x y).x0 = x)) ∧
    ((Tex.bboxStep img s x y).y0 = s.y0 ∨
      (Tex.alphaThresh < img.alpha x y ∧ (Tex.bboxStep img s x y).y0 = y)) ∧
    ((Tex.bboxStep img s x y).x1 = s.x1 ∨
      (Tex.alphaThresh < img.alpha x y ∧ (Tex.bboxStep img s x y).x1 = x)) ∧
    ((Tex.bboxStep img s x y).y1 = s.y1 ∨
      (Tex.alphaThresh < img.alpha x y ∧ (Tex.bboxStep img s x y).y1 = y)) := by
  unfold Tex.bboxStep
  by_cases h : Tex.alphaThresh < img.alpha x y
  · rw [if_pos h]
    refine ⟨?_, ?_, ?_, ?_⟩ <;>
      (dsimp only; split <;> first | exact Or.inl rfl | exact Or.inr ⟨h, rfl⟩)
  · rw [if_neg h]
    exact ⟨Or.inl rfl, Or.inl rfl, Or.inl rfl, Or.inl rfl⟩

lemma scanRow_attain (img : Tex.Image) (y : ℕ) : ∀ (xs : List ℕ) (s : Tex.BBox),
    ((Tex.scanRow img y xs s).x0 = s.x0 ∨ ∃ x ∈ xs,
       Tex.alphaThresh < img.alpha x y ∧ (Tex.scanRow img y xs s).x0 = x) ∧
    ((Tex.scanRow img y xs s).y0 = s.y0 ∨ ∃ x ∈ xs,
       Tex.alphaThresh < img.alpha x y ∧ (Tex.scanRow img y xs s).y0 = y) ∧
    ((Tex.scanRow img y xs s).x1 = s.x1 ∨ ∃ x ∈ xs,
       Tex.alphaThresh < img.alpha x y ∧ (Tex.scanRow img y xs s).x1 = x) ∧
    ((Tex.scanRow img y xs s).y1 = s.y1 ∨ ∃ x ∈ xs,
       Tex.alphaThresh < img.alpha x y ∧ (Tex.scanRow img y xs s).y1 = y) := by
  intro xs
  induction xs with
  | nil => intro s; exact ⟨Or.inl rfl, Or.inl rfl, Or.inl rfl, Or.inl rfl⟩
  | cons a tl ih =>
    intro s
    have hstep := bboxStep_attain img s a y
    have htl := ih (Tex.bboxStep img s a y)
    simp only [Tex.scanRow, List.foldl_cons] at htl ⊢
    refine ⟨?_, ?_, ?_, ?_⟩
    · rcases htl.1 with h | ⟨x, hx, hopx, he⟩
      · rcases hstep.1 with h' | ⟨hopa, he⟩
        · exact Or.inl (h.trans h')
        · exact Or.inr ⟨a, List.mem_cons_self a tl, hopa, h.trans he⟩
      · exact Or.inr ⟨x, List.mem_cons_of_mem a hx, hopx, he⟩
    · rcases htl.2.1 with h | ⟨x, hx, hopx, he⟩
      · rcases hstep.2.1 with h' | ⟨hopa, he⟩
        · exact Or.inl (h.trans h')
        · exact Or.inr ⟨a, List.mem_cons_self a tl, hopa, h.trans he⟩
      · exact Or.inr ⟨x, List.mem_cons_of_mem a hx, hopx, he⟩
    · rcases htl.2.2.1 with h | ⟨x, hx, hopx, he⟩
      · rcases hstep.2.2.1 with h' | ⟨hopa, he⟩
        · exact Or.inl (h.trans h')
        · exact Or.inr ⟨a, List.mem_cons_self a tl, hopa, h.trans he⟩
      · exact Or.inr ⟨x, List.mem_cons_of_mem a hx, hopx, he⟩
    · rcases htl.2.2.2 with h | ⟨x, hx, hopx, he⟩
      · rcases hstep.2.2.2 with h' | ⟨hopa, he⟩
        · exact Or.inl (h.trans h')
        · exact Or.inr ⟨a, List.mem_cons_self a tl, hopa, h.trans he⟩
      · exact Or.inr ⟨x, List.mem_cons_of_mem a hx, hopx, he⟩

lemma scanRows_attain (img : Tex.Image) (xs : List ℕ) : ∀ (ys : List ℕ) (s : Tex.BBox),
    ((Tex.scanRows img xs ys s).x0 = s.x0 ∨ ∃ x ∈ xs, ∃ y ∈ ys,
       Tex.alphaThresh < img.alpha x y ∧ (Tex.scanRows img xs ys s).x0 = x) ∧
    ((Tex.scanRows img xs ys s).y0 = s.y0 ∨ ∃ x ∈ xs, ∃ y ∈ ys,
       Tex.alphaThresh < img.alpha x y ∧ (Tex.scanRows img xs ys s).y0 = y) ∧
    ((Tex.scanRows img xs ys s).x1 = s.x1 ∨ ∃ x ∈ xs, ∃ y ∈ ys,
       Tex.alphaThresh < img.alpha x y ∧ (Tex.scanRows img xs ys s).x1 = x) ∧
    ((Tex.scanRows img xs ys s).y1 = s.y1 ∨ ∃ x ∈ xs, ∃ y ∈ ys,
       Tex.alphaThresh < img.alpha x y ∧ (Tex.scanRows img xs ys s).y1 = y) := by
  intro ys
  induction ys with
  | nil => intro s; exact ⟨Or.inl rfl, Or.inl rfl, Or.inl rfl, Or.inl rfl⟩
  | cons b tl ih =>
    intro s
    have hrow := scanRow_attain img b xs s
    have htl := ih (Tex.scanRow img b xs s)
    simp only [Tex.scanRows, List.foldl_cons] at htl ⊢
    refine ⟨?_, ?_, ?_, ?_⟩
    · rcases htl.1 with h | ⟨x, hx, y, hy, hop, he⟩
      · rcases hrow.1 with h' | ⟨x, hx, hop, he⟩
        · exact Or.inl (h.trans h')
        · exact Or.inr ⟨x, hx, b, List.mem_cons_self b tl, hop, h.trans he⟩
      · exact Or.inr ⟨x, hx, y, List.mem_cons_of_mem b hy, hop, he⟩
    · rcases htl.2.1 with h | ⟨x, hx, y, hy, hop, he⟩
      · rcases hrow.2.1 with h' | ⟨x, hx, hop, he⟩
        · exact Or.inl (h.trans h')
        · exact Or.inr ⟨x, hx, b, List.mem_cons_self b tl, hop, h.trans he⟩
      · exact Or.inr ⟨x, hx, y, List.mem_cons_of_mem b hy, hop, he⟩
    · rcases htl.2.2.1 with h | ⟨x, hx, y, hy, hop, he⟩
      · rcases hrow.2.2.1 with h' | ⟨x, hx, hop, he⟩
        · exact Or.inl (h.trans h')
        · exact Or.inr ⟨x, hx, b, List.mem_cons_self b tl, hop, h.trans he⟩
      · exact Or.inr ⟨x, hx, y, List.mem_cons_of_mem b hy, hop, he⟩
    · rcases htl.2.2.2 with h | ⟨x, hx, y, hy, hop, he⟩
      · rcases hrow.2.2.2 with h' | ⟨x, hx, hop, he⟩
        · exact Or.inl (h.trans h')
        · exact Or.inr ⟨x, hx, b, List.mem_cons_self b tl, hop, h.trans he⟩
      · exact Or.inr ⟨x, hx, y, List.mem_cons_of_mem b hy, hop, he⟩

lemma computeBBox_bounds (img : Tex.Image) (x y : ℕ) (hx : x < img.width)
    (hy : y < img.height) (hop : Tex.alphaThresh < img.alpha x y) :
    (Tex.computeBBox img).x0 ≤ x ∧ (x : ℤ) ≤ (Tex.computeBBox img).x1 ∧
    (Tex.computeBBox img).y0 ≤ y ∧ (y : ℤ) ≤ (Tex.computeBBox img).y1 :=
  scanRows_bounds img (List.range img.width) (List.range img.height) _ x y
    (List.mem_range.mpr hx) (List.mem_range.mpr hy) hop

/-- With at least one opaque pixel, each side of the computed box is
attained by an opaque pixel (so the box is exactly the opaque bounding
box, together with `computeBBox_bounds`). -/
lemma computeBBox_attained (img : Tex.Image)
    (hop : ∃ x < img.width, ∃ y < img.height, Tex.alphaThresh < img.alpha x y) :
    (∃ x < img.width, ∃ y < img.height, Tex.alphaThresh < img.alpha x y ∧
       (x : ℤ) = (Tex.computeBBox img).x0) ∧
    (∃ x < img.width, ∃ y < img.height, Tex.alphaThresh < img.alpha x y ∧
       (y : ℤ) = (Tex.computeBBox img).y0) ∧
    (∃ x < img.width, ∃ y < img.height, Tex.alphaThresh < img.alpha x y ∧
       (x : ℤ) = (Tex.computeBBox img).x1) ∧
    (∃ x < img.width, ∃ y < img.height, Tex.alphaThresh < img.alpha x y ∧
       (y : ℤ) = (Tex.computeBBox img).y1) := by
  obtain ⟨x₀, hx₀, y₀, hy₀, ho₀⟩ := hop
  have hbd := computeBBox_bounds img x₀ y₀ hx₀ hy₀ ho₀
  have hat := scanRows_attain img (List.range img.width) (List.range img.height)
    ⟨(img.width : ℤ), (img.height : ℤ), -1, -1⟩
  have hcb : Tex.computeBBox img = Tex.scanRows img (List.range img.width)
      (List.range img.height) ⟨(img.width : ℤ), (img.height : ℤ), -1, -1⟩ := rfl
  rw [← hcb] at hat
  refine ⟨?_, ?_, ?_, ?_⟩
  · rcases hat.1 with h | ⟨x, hx, y, hy, ho, he⟩
    · exfalso
      have h1 := hbd.1
      rw [h] at h1
      dsimp only at h1
      omega
    · exact ⟨x, List.mem_range.mp hx, y, List.mem_range.mp hy, ho, he.symm⟩
  · rcases hat.2.1 with h | ⟨x, hx, y, hy, ho, he⟩
    · exfalso
      have h1 := hbd.2.2.1
      rw [h] at h1
      dsimp only at h1
      omega
    · exact ⟨x, List.mem_range.mp hx, y, List.mem_range.mp hy, ho, he.symm⟩
  · rcases hat.2.2.1 with h | ⟨x, hx, y, hy, ho, he⟩
    · exfalso
      have h1 := hbd.2.1
      rw [h] at h1
      dsimp only at h1
      omega
    · exact ⟨x, List.mem_range.mp hx, y, List.mem_range.mp hy, ho, he.symm⟩
  · rcases hat.2.2.2 with h | ⟨x, hx, y, hy, ho, he⟩
    · exfalso
      have h1 := hbd.2.2.2
      rw [h] at h1
      dsimp only at h1
      omega
    · exact ⟨x, List.mem_range.mp hx, y, List.mem_range.mp hy, ho, he.symm⟩

/-- With no opaque pixel, the scan leaves the box in its empty initial
state, so `x1 < x0` holds and the source returns the original texture. -/
lemma computeBBox_empty (img : Tex.Image)
    (hno : ∀ x < img.width, ∀ y < img.height, img.alpha x y ≤ Tex.alphaThresh) :
    (Tex.computeBBox img).x1 = -1 ∧ (Tex.computeBBox img).x0 = img.width := by
  have hat := scanRows_attain img (List.range img.width) (List.range img.height)
    ⟨(img.width : ℤ), (img.height : ℤ), -1, -1⟩
  have hcb : Tex.computeBBox img = Tex.scanRows img (List.range img.width)
      (List.range img.height) ⟨(img.width : ℤ), (img.height : ℤ), -1, -1⟩ := rfl
  rw [← hcb] at hat
  constructor
  · rcases hat.2.2.1 with h | ⟨x, hx, y, hy, ho, _⟩
    · exact h
    · exact absurd ho (not_lt.mpr
        (hno x (List.mem_range.mp hx) y (List.mem_range.mp hy)))
  · rcases hat.1 with h | ⟨x, hx, y, hy, ho, _⟩
    · exact h
    · exact absurd ho (not_lt.mpr
        (hno x (List.mem_range.mp hx) y (List.mem_range.mp hy)))

lemma targetDiameter_eq : Tex.targetDiameter = 440 := by
  rw [Tex.targetDiameter, round_eq]; norm_num

/-- The clamped crop side is at least one pixel: the crop start is
floor-bounded strictly below `x0 < w`, so `w - cropX ≥ 1`, and the square
side is at least 1. -/
lemma cropSide_pos (w : ℕ) (x0 x1 bside : ℤ) (hw : 0 < w) (h0 : 0 ≤ x0)
    (h01 : x0 ≤ x1) (h1w : x1 < (w : ℤ)) (hb : x1 - x0 + 1 ≤ bside) :
    1 ≤ min ((w : ℤ) - max 0 ⌊((x0 + x1 : ℤ) : ℚ) / 2 - ((bside : ℤ) : ℚ) / 2⌋)
      bside := by
  have hb1 : (1 : ℤ) ≤ bside := by omega
  have hfl : ⌊((x0 + x1 : ℤ) : ℚ) / 2 - ((bside : ℤ) : ℚ) / 2⌋ < x0 := by
    apply Int.floor_lt.mpr
    have hble : ((x1 - x0 + 1 : ℤ) : ℚ) ≤ ((bside : ℤ) : ℚ) := by exact_mod_cast hb
    push_cast at hble ⊢
    linarith
  have h1 : (0 : ℤ) < (w : ℤ) := by exact_mod_cast hw
  apply le_min
  · have h2 : ⌊((x0 + x1 : ℤ) : ℚ) / 2 - ((bside : ℤ) : ℚ) / 2⌋ < (w : ℤ) := by omega
    omega
  · exact hb1

/-- Any of the source's early-return conditions yields the original
texture. -/
lemma normalize_orig_of_fail (src2 : Tex.SourceTexture) (img2 : Tex.Image)
    (heq : src2.image = some img2)
    (hfail : img2.width = 0 ∨ img2.height = 0 ∨ src2.ctx2dOk = false ∨
      src2.pixelsOk = false ∨
      (Tex.computeBBox img2).x1 < (Tex.computeBBox img2).x0 ∨
      (Tex.computeBBox img2).y1 < (Tex.computeBBox img2).y0) :
    Tex.normalizeBallTexture src2 = Tex.NormTexture.orig src2 := by
  simp only [Tex.normalizeBallTexture, heq]
  by_cases h1 : img2.width = 0 ∨ img2.height = 0
  · rw [if_pos h1]
  · rw [if_neg h1]
    by_cases h2 : src2.ctx2dOk = false
    · rw [if_pos h2]
    · rw [if_neg h2]
      by_cases h3 : src2.pixelsOk = false
      · rw [if_pos h3]
      · rw [if_neg h3]
        by_cases h4 : (Tex.computeBBox img2).x1 < (Tex.computeBBox img2).x0 ∨
            (Tex.computeBBox img2).y1 < (Tex.computeBBox img2).y0
        · rw [if_pos h4]
        · rcases hfail with ha | hb | hc | hd | he | hf
          · exact absurd (Or.inl ha) h1
          · exact absurd (Or.inr hb) h1
          · exact absurd hc h2
          · exact absurd hd h3
          · exact absurd (Or.inl he) h4
          · exact absurd (Or.inr hf) h4

/-- Scaling both crop sides by `TARGET / max(cropW, cropH)` makes the
larger destination side exactly `TARGET = 440`. -/
lemma max_scaled (W H : ℤ) (hW : 1 ≤ W) (hH : 1 ≤ H) (t : ℤ) (ht : t = 440) :
    max ((W : ℚ) * ((t : ℚ) / ((max W H : ℤ) : ℚ)))
        ((H : ℚ) * ((t : ℚ) / ((max W H : ℤ) : ℚ))) = 440 := by
  subst ht
  have hm : (1 : ℤ) ≤ max W H := le_trans hW (le_max_left _ _)
  have hmQ : (0 : ℚ) < ((max W H : ℤ) : ℚ) := by exact_mod_cast lt_of_lt_of_le zero_lt_one hm
  have hmne : ((max W H : ℤ) : ℚ) ≠ 0 := ne_of_gt hmQ
  have hs : (0 : ℚ) ≤ ((440 : ℤ) : ℚ) / ((max W H : ℤ) : ℚ) := by positivity
  rw [← max_mul_of_nonneg _ _ hs, ← Int.cast_max]
  field_simp

/-! ### The Fisher–Yates pass only permutes -/

lemma cons_set_perm : ∀ (tl : List ℕ) (k b x : ℕ), tl[k]? = some b →
    (b :: tl.set k x).Perm (x :: tl) := by
  intro tl
  induction tl with
  | nil => intro k b x h; simp at h
  | cons c tt ih =>
    intro k b x h
    match k with
    | 0 =>
      rw [List.getElem?_cons_zero] at h
      cases h
      rw [List.set_cons_zero]
      exact List.Perm.swap x c tt
    | k' + 1 =>
      rw [List.getElem?_cons_succ] at h
      rw [List.set_cons_succ]
      exact ((List.Perm.swap c b _).trans
        (List.Perm.cons c (ih k' b x h))).trans (List.Perm.swap x c tt)

lemma set_set_perm : ∀ (l : List ℕ) (i j a b : ℕ),
    l[i]? = some a → l[j]? = some b → ((l.set i b).set j a).Perm l := by
  intro l
  induction l with
  | nil => intro i j a b hi hj; simp at hi
  | cons x tl ih =>
    intro i j a b hi hj
    match i, j with
    | 0, 0 =>
      rw [List.getElem?_cons_zero] at hi hj
      cases hi; cases hj
      rw [List.set_cons_zero, List.set_cons_zero]
    | 0, j' + 1 =>
      rw [List.getElem?_cons_zero] at hi
      cases hi
      rw [List.getElem?_cons_succ] at hj
      rw [List.set_cons_zero, List.set_cons_succ]
      exact cons_set_perm tl j' b x hj
    | i' + 1, 0 =>
      rw [List.getElem?_cons_succ] at hi
      rw [List.getElem?_cons_zero] at hj
      cases hj
      rw [List.set_cons_succ, List.set_cons_zero]
      exact cons_set_perm tl i' a x hi
    | i' + 1, j' + 1 =>
      rw [List.getElem?_cons_succ] at hi hj
      rw [List.set_cons_succ, List.set_cons_succ]
      exact List.Perm.cons x (ih i' j' a b hi hj)

lemma swapEntries_perm (l : List ℕ) (i j : ℕ) :
    (Overlay.swapEntries l i j).Perm l := by
  unfold Overlay.swapEntries
  rcases hi : l[i]? with _ | a
  · simp only [hi]
    exact List.Perm.refl l
  · rcases hj : l[j]? with _ | b
    · simp only [hi, hj]
      exact List.Perm.refl l
    · simp only [hi, hj]
      exact set_set_perm l i j a b hi hj

lemma fold_swap_perm : ∀ (idxs : List ℕ) (f : ℕ → ℕ) (l : List ℕ),
    (idxs.foldl (fun acc i => Overlay.swapEntries acc i (f i % (i + 1))) l).Perm l := by
  intro idxs
  induction idxs with
  | nil => intro f l; exact List.Perm.refl l
  | cons i rest ih =>
    intro f l
    exact (ih f _).trans (swapEntries_perm l i _)

lemma fisherYates_perm (f : ℕ → ℕ) (l : List ℕ) :
    (Overlay.fisherYates f l).Perm l :=
  fold_swap_perm _ f l

lemma length_texChunk (n : ℕ) :
    ((List.range n).flatMap fun t =>
      List.replicate Overlay.ballsPerTexture t).length
      = Overlay.ballsPerTexture * n := by
  induction n with
  | zero => simp
  | succ m ih =>
    rw [List.range_succ, List.flatMap_append, List.length_append, ih]
    simp [Overlay.ballsPerTexture]
    omega

lemma count_texChunk_ge : ∀ (n t : ℕ), n ≤ t →
    ((List.range n).flatMap fun x =>
      List.replicate Overlay.ballsPerTexture x).count t = 0 := by
  intro n
  induction n with
  | zero => intro t h; simp
  | succ m ih =>
    intro t h
    rw [List.range_succ, List.flatMap_append, List.count_append]
    rw [ih t (by omega)]
    have hne : m ≠ t := by omega
    simp [List.count_replicate, hne]

lemma count_texChunk : ∀ (n t : ℕ), t < n →
    ((List.range n).flatMap fun x =>
      List.replicate Overlay.ballsPerTexture x).count t
      = Overlay.ballsPerTexture := by
  intro n
  induction n with
  | zero => intro t h; exact absurd h (Nat.not_lt_zero t)
  | succ m ih =>
    intro t h
    rw [List.range_succ, List.flatMap_append, List.count_append]
    rcases Nat.lt_or_ge t m with h' | h'
    · rw [ih t h']
      have hne : m ≠ t := by omega
      simp [List.count_replicate, hne]
    · have ht : t = m := by omega
      subst ht
      rw [count_texChunk_ge t t (le_refl t)]
      simp [List.count_replicate_self]

lemma length_buildTextureSequence (f : ℕ → ℕ) (n : ℕ) :
    (Overlay.buildTextureSequence f n).length = Overlay.ballsPerTexture * n :=
  ((fisherYates_perm f _).length_eq).trans (length_texChunk n)

lemma count_buildTextureSequence (f : ℕ → ℕ) (n t : ℕ) (ht : t < n) :
    (Overlay.buildTextureSequence f n).count t = Overlay.ballsPerTexture :=
  ((fisherYates_perm f _).count_eq t).trans (count_texChunk n t ht)

lemma length_loadAllTextures : ∀ (results : List (Option ℕ)),
    (Overlay.loadAllTextures results).length = results.countP Option.isSome := by
  intro results
  induction results with
  | nil => simp [Overlay.loadAllTextures]
  | cons o rest ih =>
    cases o <;>
      simp [Overlay.loadAllTextures, List.filterMap_cons, List.countP_cons,
        Overlay.loadAllTextures] at ih ⊢ <;> omega

/-! ## The claims -/

/-- Claim C1 (amended): every overlay animation frame, and every
`NeoballPhysics` frame that fires while the document is visible, executes
the fixed-timestep pattern in order — step the world with timestep `1/60`,
the measured delta (clamped to at most `0.1` s and with 3 substeps in the
overlay; unclamped with 2 substeps on mobile / 3 on desktop in
`NeoballPhysics`), then copy body transforms into the render objects, then
render.  A `NeoballPhysics` frame that fires while the document is hidden
performs none of these operations. -/
theorem c1_frame_pipeline (env : MathEnv) (sf : StepFn) (st : Overlay.OState)
    (d : ℚ) (pst : Phys.PState) (pd : ℚ) :
    (Overlay.animate env sf st d).2 =
      [FrameEvent.step (1/60) (min d (1/10)) 3, FrameEvent.sync, FrameEvent.render]
    ∧ min d (1/10) ≤ 1/10
    ∧ (Phys.animate sf pst pd false).2 =
      [FrameEvent.step (1/60) pd (if pst.isMobile then 2 else 3),
       FrameEvent.sync, FrameEvent.render]
    ∧ Phys.animate sf pst pd true = (pst, []) :=
  ⟨rfl, min_le_right _ _, rfl, rfl⟩

/-- Claim C1, counterexample to the claim as stated: a `NeoballPhysics`
frame that fires while `document.hidden` is true executes nothing — in
particular not the step/sync/render sequence the claim requires of every
frame. -/
theorem c1_hidden_frame_cex :
    Phys.animate idStep {} 1 true = ({}, []) ∧
    ([] : List FrameEvent) ≠
      [FrameEvent.step (1/60) 1 3, FrameEvent.sync, FrameEvent.render] := by
  exact ⟨rfl, by decide⟩

/-- Claim C2 (amended): after every animation frame, every `NeoballPhysics`
ball's mesh position and quaternion equal its body's position and
quaternion; every overlay ball's sprite x and y equal its body's x and y,
while the sprite's z is pinned to `config.zOffset` (not copied from the
body). -/
theorem c2_transform_sync (env : MathEnv) (sf : StepFn) (st : Overlay.OState)
    (d : ℚ) (pst : Phys.PState) (pd : ℚ) (ob : Overlay.OBall) (pb : Phys.PBall)
    (ho : ob ∈ (Overlay.animate env sf st d).1.balls)
    (hp : pb ∈ (Phys.animate sf pst pd false).1.balls) :
    ob.sprite.position.x = ob.body.position.x ∧
    ob.sprite.position.y = ob.body.position.y ∧
    ob.sprite.position.z = st.config.zOffset ∧
    pb.mesh.position = pb.body.position ∧
    pb.mesh.quaternion = pb.body.quaternion := by
  simp only [Overlay.animate] at ho
  simp only [Phys.animate, Bool.false_eq_true, if_false] at hp
  obtain ⟨b₀, -, rfl⟩ := List.mem_map.mp ho
  obtain ⟨p₀, -, rfl⟩ := List.mem_map.mp hp
  exact ⟨rfl, rfl, rfl, rfl, rfl⟩

/-- Claim C2, counterexample to the claim as stated: with the default
config (`zOffset = 0`), a ball whose body sits at `z = 5` ends the frame
with its sprite at `z = 0` — the sprite's position does not equal the
body's position in all three coordinates. -/
theorem c2_overlay_sprite_z_cex :
    ((Overlay.animate zeroEnv idStep c2State 0).1.balls.map fun b =>
      (b.sprite.position, b.body.position)) = [(⟨0, 0, 0⟩, ⟨0, 0, 5⟩)] ∧
    (⟨0, 0, 0⟩ : Vec3) ≠ ⟨0, 0, 5⟩ := by
  refine ⟨by rw [animate_c2State]; rfl, by decide⟩

/-- Claim C2, witness: the amended statement at a concrete frame. -/
theorem c2_transform_sync_witness :
    c2ResultBall.sprite.position.x = c2ResultBall.body.position.x :=
  (c2_transform_sync zeroEnv idStep c2State 0 sampleP 0 c2ResultBall sampleBall
    (by rw [animate_c2State]; exact List.mem_singleton.mpr rfl)
    (by rw [animate_sampleP]; exact List.mem_singleton.mpr rfl)).1

/-- Claim C5: a device-orientation event with non-null gamma and beta sets
gravity so that its x component is the gamma clamp times `0.4` (hence lies
in `[-18, 18]`), its y component is at most `-3`, and its z component is 0;
an event with null gamma or null beta leaves the state unchanged. -/
theorem c5_orientation_gravity (st : Phys.PState) (g b : ℚ) :
    (Phys.onDeviceOrientation st (some g) (some b)).gravity.x =
      max (-45) (min 45 g) * (4/10) ∧
    -18 ≤ (Phys.onDeviceOrientation st (some g) (some b)).gravity.x ∧
    (Phys.onDeviceOrientation st (some g) (some b)).gravity.x ≤ 18 ∧
    (Phys.onDeviceOrientation st (some g) (some b)).gravity.y ≤ -3 ∧
    (Phys.onDeviceOrientation st (some g) (some b)).gravity.z = 0 ∧
    Phys.onDeviceOrientation st none (some b) = st ∧
    Phys.onDeviceOrientation st (some g) none = st ∧
    Phys.onDeviceOrientation st none none = st := by
  have h1 : (-45 : ℚ) ≤ max (-45) (min 45 g) := le_max_left _ _
  have h2 : max (-45) (min 45 g) ≤ 45 := max_le (by norm_num) (min_le_left _ _)
  refine ⟨rfl, ?_, ?_, ?_, rfl, rfl, rfl, rfl⟩
  · show (-18 : ℚ) ≤ max (-45) (min 45 g) * (4/10)
    nlinarith
  · show max (-45) (min 45 g) * (4/10) ≤ (18 : ℚ)
    nlinarith
  · exact min_le_right _ _

/-- Claim C9: `addBall` returns the previous count plus one (and the list
grows by one); `getBallCount` is the list's length; `removeBall` on a
non-empty list drops exactly the last ball from the list, removes its mesh
from the scene and its body from the world, and returns the previous count
minus one; `removeBall` on an empty list returns 0 and changes nothing. -/
theorem c9_add_remove_count (stA st stE : Phys.PState) (w h r : ℚ)
    (lastB : Phys.PBall) (hne : st.balls.getLast? = some lastB)
    (hE : stE.balls = []) :
    (Phys.addBall stA w h r).2 = stA.balls.length + 1 ∧
    (Phys.addBall stA w h r).1.balls.length = stA.balls.length + 1 ∧
    Phys.getBallCount stA = stA.balls.length ∧
    (Phys.removeBall st).1.balls = st.balls.dropLast ∧
    (Phys.removeBall st).2 = st.balls.length - 1 ∧
    (Phys.removeBall st).1.sceneMeshes = st.sceneMeshes.erase lastB.meshId ∧
    (Phys.removeBall st).1.worldBodies = st.worldBodies.erase lastB.bodyId ∧
    Phys.removeBall stE = (stE, 0) := by
  refine ⟨?_, ?_, rfl, ?_, ?_, ?_, ?_, ?_⟩
  · simp [Phys.addBall]
  · simp [Phys.addBall]
  · simp [Phys.removeBall, hne]
  · simp [Phys.removeBall, hne, List.length_dropLast]
  · simp [Phys.removeBall, hne]
  · simp [Phys.removeBall, hne]
  · simp [Phys.removeBall, hE]

/-- Claim C9, witness: `addBall` at a concrete state returns the previous
count plus one. -/
theorem c9_add_remove_count_witness :
    (Phys.addBall {} 1 1 0).2 = ({} : Phys.PState).balls.length + 1 :=
  (c9_add_remove_count {} sampleP {} 1 1 0 sampleBall rfl rfl).1

/-- Claim C4: pointer-down on a raycast hit selects the ball, starts the
drag and zeroes the body's linear and angular velocity; while dragging,
pointer-move sets the selected body's (x/y) velocity to `0.25` times its
displacement from the cursor; pointer-up clamps the drag velocity per
component to `[-50, 50]`, multiplies by `config.throwForce`, assigns it as
the ball's velocity, and clears the selection and the dragging flag. -/
theorem c4_drag_throw
    (st₁ : Phys.PState) (p₁ : ℚ × ℚ) (n₁ : ℚ) (i₁ : ℕ) (b₁ : Phys.PBall)
    (h₁ : st₁.balls[i₁]? = some b₁)
    (st₂ : Phys.PState) (p₂ : ℚ × ℚ) (n₂ : ℚ) (i₂ : ℕ) (b₂ : Phys.PBall)
    (h₂d : st₂.isDragging = true) (h₂s : st₂.selectedBall = some i₂)
    (h₂ : st₂.balls[i₂]? = some b₂)
    (st₃ : Phys.PState) (rz : ℚ) (i₃ : ℕ) (b₃ : Phys.PBall)
    (h₃d : st₃.isDragging = true) (h₃s : st₃.selectedBall = some i₃)
    (h₃ : st₃.balls[i₃]? = some b₃) :
    ((Phys.onPointerDown st₁ p₁ n₁ (some i₁)).selectedBall = some i₁ ∧
     (Phys.onPointerDown st₁ p₁ n₁ (some i₁)).isDragging = true ∧
     (Phys.onPointerDown st₁ p₁ n₁ (some i₁)).balls[i₁]? = some
       { b₁ with body := { b₁.body with
           velocity := ⟨0, 0, 0⟩, angularVelocity := ⟨0, 0, 0⟩ } }) ∧
    (Phys.onPointerMove st₂ p₂ n₂).balls[i₂]? = some
      { b₂ with body := { b₂.body with velocity :=
          ⟨(p₂.1 - b₂.body.position.x) * (1/4),
           (p₂.2 - b₂.body.position.y) * (1/4), b₂.body.velocity.z⟩ } } ∧
    ((Phys.onPointerUp st₃ rz).selectedBall = none ∧
     (Phys.onPointerUp st₃ rz).isDragging = false ∧
     (Phys.onPointerUp st₃ rz).dragVelocity = (0, 0) ∧
     (Phys.onPointerUp st₃ rz).balls[i₃]? = some
       { b₃ with body := { b₃.body with
           velocity := ⟨Phys.clamp50 st₃.dragVelocity.1 * st₃.config.throwForce,
                        Phys.clamp50 st₃.dragVelocity.2 * st₃.config.throwForce,
                        b₃.body.velocity.z⟩,
           angularVelocity := ⟨Phys.clamp50 st₃.dragVelocity.2 * (15/100),
                               -Phys.clamp50 st₃.dragVelocity.1 * (15/100),
                               (rz - 1/2) * 2⟩ } }) := by
  have hlt₁ := (List.getElem?_eq_some.mp h₁).1
  have hlt₂ := (List.getElem?_eq_some.mp h₂).1
  have hlt₃ := (List.getElem?_eq_some.mp h₃).1
  refine ⟨⟨rfl, rfl, ?_⟩, ?_, ?_⟩
  · simp [Phys.onPointerDown, Phys.setBall, h₁, List.getElem?_set_self hlt₁]
  · simp [Phys.onPointerMove, Phys.setBall, h₂s, h₂d, h₂, List.getElem?_set_self hlt₂]
  · simp [Phys.onPointerUp, Phys.setBall, h₃s, h₃d, h₃, List.getElem?_set_self hlt₃]

/-- Claim C4, witness: pointer-down at a concrete state selects ball 0. -/
theorem c4_drag_throw_witness :
    (Phys.onPointerDown sampleP (0, 0) 0 (some 0)).selectedBall = some 0 :=
  (c4_drag_throw sampleP (0, 0) 0 0 sampleBall rfl
    { sampleP with isDragging := true, selectedBall := some 0 } (0, 0) 0 0 sampleBall
    rfl rfl rfl
    { sampleP with isDragging := true, selectedBall := some 0 } 0 0 sampleBall
    rfl rfl rfl).1.1

/-- Claim C6: the overlay world's gravity starts at `(0, 0, 0)`; every frame
sets it to `(sin(0.5 t') * oscGravity, cos(0.4 t') * oscGravity, 0)` at the
accumulated time `t'`; consequently (for the trigonometric bound
`|sin|, |cos| ≤ 1` and a non-negative `oscGravity`, `0.015` by default) each
component's magnitude is at most `oscGravity` and the z component is 0. -/
theorem c6_oscillating_gravity (env : MathEnv) (sf : StepFn) (st : Overlay.OState)
    (d : ℚ) (hs : ∀ q : ℚ, |env.sin q| ≤ 1) (hc : ∀ q : ℚ, |env.cos q| ≤ 1)
    (hosc : 0 ≤ st.config.oscGravity) :
    Overlay.createPhysicsWorld.gravity = ⟨0, 0, 0⟩ ∧
    (Overlay.mkConfig {}).oscGravity = 15/1000 ∧
    (Overlay.animate env sf st d).1.gravity =
      ⟨env.sin ((1/2) * (st.t + min d (1/10))) * st.config.oscGravity,
       env.cos ((4/10) * (st.t + min d (1/10))) * st.config.oscGravity, 0⟩ ∧
    |(Overlay.animate env sf st d).1.gravity.x| ≤ st.config.oscGravity ∧
    |(Overlay.animate env sf st d).1.gravity.y| ≤ st.config.oscGravity ∧
    (Overlay.animate env sf st d).1.gravity.z = 0 := by
  refine ⟨rfl, rfl, rfl, ?_, ?_, rfl⟩
  · show |env.sin ((1/2) * (st.t + min d (1/10))) * st.config.oscGravity| ≤ _
    calc |env.sin ((1/2) * (st.t + min d (1/10))) * st.config.oscGravity|
        = |env.sin ((1/2) * (st.t + min d (1/10)))| * |st.config.oscGravity| :=
          abs_mul _ _
      _ ≤ 1 * |st.config.oscGravity| :=
          mul_le_mul_of_nonneg_right (hs _) (abs_nonneg _)
      _ = st.config.oscGravity := by rw [one_mul, abs_of_nonneg hosc]
  · show |env.cos ((4/10) * (st.t + min d (1/10))) * st.config.oscGravity| ≤ _
    calc |env.cos ((4/10) * (st.t + min d (1/10))) * st.config.oscGravity|
        = |env.cos ((4/10) * (st.t + min d (1/10)))| * |st.config.oscGravity| :=
          abs_mul _ _
      _ ≤ 1 * |st.config.oscGravity| :=
          mul_le_mul_of_nonneg_right (hc _) (abs_nonneg _)
      _ = st.config.oscGravity := by rw [one_mul, abs_of_nonneg hosc]

/-- Claim C6, witness: the z component of the post-frame gravity at a
concrete state is 0. -/
theorem c6_oscillating_gravity_witness :
    (Overlay.animate zeroEnv idStep c2State 0).1.gravity.z = 0 :=
  (c6_oscillating_gravity zeroEnv idStep c2State 0
    (fun q => by simp [zeroEnv]) (fun q => by simp [zeroEnv])
    (by norm_num [c2State, Overlay.mkConfig])).2.2.2.2.2

/-- Claim C10: for `L` loaded textures and every outcome of the random
shuffle, `buildTextureSequence` is a list of length
`L * BALLS_PER_TEXTURE` in which every texture index below `L` occurs
exactly `BALLS_PER_TEXTURE = 2` times — the Fisher–Yates pass only
permutes. -/
theorem c10_texture_sequence (f : ℕ → ℕ) (texs : List ℕ) (t : ℕ)
    (ht : t < texs.length) :
    Overlay.ballsPerTexture = 2 ∧
    (Overlay.buildTextureSequence f texs.length).length
      = Overlay.ballsPerTexture * texs.length ∧
    (Overlay.buildTextureSequence f texs.length).count t
      = Overlay.ballsPerTexture :=
  ⟨rfl, length_buildTextureSequence f _, count_buildTextureSequence f _ t ht⟩

/-- Claim C10, witness: the sequence built over two loaded textures has
length 4 (for a concrete shuffle oracle). -/
theorem c10_texture_sequence_witness :
    (Overlay.buildTextureSequence (fun _ => 0) ([7, 8] : List ℕ).length).length
      = Overlay.ballsPerTexture * ([7, 8] : List ℕ).length :=
  (c10_texture_sequence (fun _ => 0) [7, 8] 0 (by norm_num)).2.1

/-- Claim C8: after overlay initialization the number of balls equals
`min(config.ballCount, L * 2)` where `L` is the number of textures that
loaded successfully (failed loads are dropped by `filter(Boolean)`); with
the six-entry `BALL_TEXTURES` list this is at most 12; and a sequence index
at or beyond the loaded-texture count falls back to texture 0. -/
theorem c8_overlay_ball_count (cfg : Overlay.OConfig)
    (loadResults : List (Option ℕ)) (f : ℕ → ℕ) (po : ℕ → ℚ × ℚ)
    (vr : ℕ → ℚ × ℚ) (k : ℕ) (hL : loadResults.length = 6) :
    (Overlay.createBalls cfg (Overlay.loadAllTextures loadResults) f po vr).length
      = min cfg.ballCount
          (Overlay.ballsPerTexture * (Overlay.loadAllTextures loadResults).length) ∧
    (Overlay.createBalls cfg (Overlay.loadAllTextures loadResults) f po vr).length
      ≤ 12 ∧
    ((Overlay.loadAllTextures loadResults).length ≤ k →
      Overlay.pickTexture (Overlay.loadAllTextures loadResults) k
        = (Overlay.loadAllTextures loadResults)[0]?) ∧
    (Overlay.loadAllTextures loadResults).length = loadResults.countP Option.isSome := by
  have hlen :
      (Overlay.createBalls cfg (Overlay.loadAllTextures loadResults) f po vr).length
        = min cfg.ballCount
            (Overlay.ballsPerTexture * (Overlay.loadAllTextures loadResults).length) := by
    simp [Overlay.createBalls, length_buildTextureSequence]
  have hL6 : (Overlay.loadAllTextures loadResults).length ≤ 6 := by
    have h := List.length_filterMap_le id loadResults
    rw [hL] at h
    exact h
  refine ⟨hlen, ?_, ?_, length_loadAllTextures loadResults⟩
  · rw [hlen]
    have h1 : min cfg.ballCount
        (Overlay.ballsPerTexture * (Overlay.loadAllTextures loadResults).length)
        ≤ Overlay.ballsPerTexture * (Overlay.loadAllTextures loadResults).length :=
      min_le_right _ _
    have h2 : Overlay.ballsPerTexture * (Overlay.loadAllTextures loadResults).length
        ≤ 12 := by
      show 2 * (Overlay.loadAllTextures loadResults).length ≤ 12
      omega
    omega
  · intro hk
    simp [Overlay.pickTexture, List.getElem?_eq_none hk]

/-- Claim C7: every ball of either implementation is backed by a body of
strictly positive mass (50 in the overlay, 1 in NeoballPhysics) with exactly
one spherical shape of radius `config.ballRadius`, created at its sampled
initial position with an initial velocity (the overlay ball at
`z = zOffset` with `velocity.z = 0`, the NeoballPhysics ball at `z = 0`);
every boundary wall of both implementations has mass 0. -/
theorem c7_ball_bodies (cfg : Overlay.OConfig) (texs : List ℕ) (f : ℕ → ℕ)
    (po : ℕ → ℚ × ℚ) (vr : ℕ → ℚ × ℚ) (vw vh : ℚ)
    (pcfg : Phys.PConfig) (pw ph : ℚ) (rnd : ℕ → ℕ → ℚ)
    (i j : ℕ) (ob : Overlay.OBall) (pb : Phys.PBall)
    (ho : (Overlay.createBalls cfg texs f po vr)[i]? = some ob)
    (hp : (Phys.createBalls pcfg pw ph rnd)[j]? = some pb) :
    ob.body.mass = 50 ∧ 0 < ob.body.mass ∧
    ob.body.shapes = [Shape.sphere cfg.ballRadius] ∧
    ob.body.position = ⟨(po i).1, (po i).2, cfg.zOffset⟩ ∧
    ob.body.velocity.z = 0 ∧
    pb.body.mass = 1 ∧ 0 < pb.body.mass ∧
    pb.body.shapes = [Shape.sphere pcfg.ballRadius] ∧
    pb.body.position.z = 0 ∧
    (∀ wB ∈ Overlay.createBoundaries cfg vw vh, wB.mass = 0) ∧
    (∀ wB ∈ Phys.createBoundaries pw ph, wB.mass = 0) := by
  rw [Overlay.createBalls, List.getElem?_map] at ho
  rw [Phys.createBalls, List.getElem?_map] at hp
  rcases hri : (List.range (min cfg.ballCount
      (Overlay.buildTextureSequence f texs.length).length))[i]? with _ | i'
  · rw [hri] at ho; cases ho
  · rw [hri] at ho
    obtain ⟨hlt, hie⟩ := List.getElem?_eq_some.mp hri
    rw [List.getElem_range] at hie
    cases hie
    cases ho
    rcases hrj : (List.range pcfg.ballCount)[j]? with _ | j'
    · rw [hrj] at hp; cases hp
    · rw [hrj] at hp
      obtain ⟨hltj, hje⟩ := List.getElem?_eq_some.mp hrj
      rw [List.getElem_range] at hje
      cases hje
      cases hp
      refine ⟨rfl, by norm_num, rfl, rfl, rfl, rfl, by norm_num, rfl, rfl, ?_, ?_⟩
      · intro wB hw
        simp only [Overlay.createBoundaries, List.mem_cons,
          List.not_mem_nil, or_false] at hw
        rcases hw with rfl | rfl | rfl | rfl | rfl | rfl <;> rfl
      · intro wB hw
        simp only [Phys.createBoundaries, List.mem_cons,
          List.not_mem_nil, or_false] at hw
        rcases hw with rfl | rfl | rfl | rfl <;> rfl

/-- Claim C7, witness: the first overlay ball at a concrete configuration
has body mass 50. -/
theorem c7_ball_bodies_witness : c7OBall.body.mass = 50 :=
  (c7_ball_bodies (Overlay.mkConfig {}) [5] (fun _ => 0) (fun _ => (1, 2))
    (fun _ => (0, 0)) 1 1 {} 1 1 (fun _ _ => 0) 0 0 c7OBall c7PBall
    createBalls_c7_eval physCreateBalls_c7_eval).1

/-- Claim C3 (amended): given an image with readable pixel data and at
least one pixel with alpha above the threshold 8, normalization returns a
new 512×512 canvas texture: `computeBBox` is exactly the opaque bounding
box (every opaque pixel lies inside it, every side is attained); the crop
is the square of side `b = max(boxWidth, boxHeight)` around the box's
centre, floor-positioned and clamped to the image (so near the edges it can
be narrower than `b` — non-square — and can cut off the box's last
row/column); the crop is scaled so its larger side is exactly
`round(512 × 0.86) = 440`, centered, and masked to a circle of that
diameter about the canvas centre.  If the image is absent, has zero size,
its pixel data is unreadable, or no pixel exceeds the threshold, the
original texture is returned unchanged. -/
theorem c3_normalize_texture (src : Tex.SourceTexture) (img : Tex.Image)
    (himg : src.image = some img) (hw : 0 < img.width) (hh : 0 < img.height)
    (hctx : src.ctx2dOk = true) (hpix : src.pixelsOk = true)
    (hop : ∃ x < img.width, ∃ y < img.height, Tex.alphaThresh < img.alpha x y) :
    Tex.targetDiameter = 440 ∧
    (∀ x y, x < img.width → y < img.height → Tex.alphaThresh < img.alpha x y →
      (Tex.computeBBox img).x0 ≤ x ∧ (x : ℤ) ≤ (Tex.computeBBox img).x1 ∧
      (Tex.computeBBox img).y0 ≤ y ∧ (y : ℤ) ≤ (Tex.computeBBox img).y1) ∧
    (∃ x < img.width, ∃ y < img.height, Tex.alphaThresh < img.alpha x y ∧
      (x : ℤ) = (Tex.computeBBox img).x0) ∧
    (∃ x < img.width, ∃ y < img.height, Tex.alphaThresh < img.alpha x y ∧
      (y : ℤ) = (Tex.computeBBox img).y0) ∧
    (∃ x < img.width, ∃ y < img.height, Tex.alphaThresh < img.alpha x y ∧
      (x : ℤ) = (Tex.computeBBox img).x1) ∧
    (∃ x < img.width, ∃ y < img.height, Tex.alphaThresh < img.alpha x y ∧
      (y : ℤ) = (Tex.computeBBox img).y1) ∧
    (∃ c : Tex.CanvasTex, Tex.normalizeBallTexture src = Tex.NormTexture.canvas c ∧
      c.width = 512 ∧ c.height = 512 ∧
      c.cropX = max 0 ⌊(((Tex.computeBBox img).x0 + (Tex.computeBBox img).x1 : ℤ) : ℚ) / 2 -
        ((max ((Tex.computeBBox img).x1 - (Tex.computeBBox img).x0 + 1)
              ((Tex.computeBBox img).y1 - (Tex.computeBBox img).y0 + 1) : ℤ) : ℚ) / 2⌋ ∧
      c.cropY = max 0 ⌊(((Tex.computeBBox img).y0 + (Tex.computeBBox img).y1 : ℤ) : ℚ) / 2 -
        ((max ((Tex.computeBBox img).x1 - (Tex.computeBBox img).x0 + 1)
              ((Tex.computeBBox img).y1 - (Tex.computeBBox img).y0 + 1) : ℤ) : ℚ) / 2⌋ ∧
      c.cropW = min ((img.width : ℤ) - c.cropX)
        (max ((Tex.computeBBox img).x1 - (Tex.computeBBox img).x0 + 1)
             ((Tex.computeBBox img).y1 - (Tex.computeBBox img).y0 + 1)) ∧
      c.cropH = min ((img.height : ℤ) - c.cropY)
        (max ((Tex.computeBBox img).x1 - (Tex.computeBBox img).x0 + 1)
             ((Tex.computeBBox img).y1 - (Tex.computeBBox img).y0 + 1)) ∧
      1 ≤ c.cropW ∧ 1 ≤ c.cropH ∧
      max c.dw c.dh = 440 ∧
      c.dx = (512 - c.dw) / 2 ∧ c.dy = (512 - c.dh) / 2 ∧
      c.maskCx = 256 ∧ c.maskCy = 256 ∧ c.maskR = 220) ∧
    (∀ src2 : Tex.SourceTexture,
      (src2.image = none ∨ ∃ img2, src2.image = some img2 ∧
        (img2.width = 0 ∨ img2.height = 0 ∨ src2.ctx2dOk = false ∨
          src2.pixelsOk = false ∨
          ∀ x < img2.width, ∀ y < img2.height, img2.alpha x y ≤ Tex.alphaThresh)) →
      Tex.normalizeBallTexture src2 = Tex.NormTexture.orig src2) := by
  obtain ⟨xa, hxa, ya, hya, hoa, hexa⟩ := (computeBBox_attained img hop).1
  obtain ⟨xb, hxb, yb, hyb, hob, heyb⟩ := (computeBBox_attained img hop).2.1
  obtain ⟨xc, hxc, yc, hyc, hoc, hexc⟩ := (computeBBox_attained img hop).2.2.1
  obtain ⟨xd, hxd, yd, hyd, hod, heyd⟩ := (computeBBox_attained img hop).2.2.2
  have hbda := computeBBox_bounds img xa ya hxa hya hoa
  have hbdb := computeBBox_bounds img xb yb hxb hyb hob
  have hbdc := computeBBox_bounds img xc yc hxc hyc hoc
  have hbdd := computeBBox_bounds img xd yd hxd hyd hod
  have hx01 : (Tex.computeBBox img).x0 ≤ (Tex.computeBBox img).x1 := by
    have h := hbda.2.1; omega
  have hy01 : (Tex.computeBBox img).y0 ≤ (Tex.computeBBox img).y1 := by
    have h := hbdb.2.2.2; omega
  have h0x0 : 0 ≤ (Tex.computeBBox img).x0 := by omega
  have h0y0 : 0 ≤ (Tex.computeBBox img).y0 := by omega
  have hx1w : (Tex.computeBBox img).x1 < (img.width : ℤ) := by omega
  have hy1h : (Tex.computeBBox img).y1 < (img.height : ℤ) := by omega
  have hcw1 := cropSide_pos img.width (Tex.computeBBox img).x0 (Tex.computeBBox img).x1
    (max ((Tex.computeBBox img).x1 - (Tex.computeBBox img).x0 + 1)
         ((Tex.computeBBox img).y1 - (Tex.computeBBox img).y0 + 1))
    hw h0x0 hx01 hx1w (le_max_left _ _)
  have hch1 := cropSide_pos img.height (Tex.computeBBox img).y0 (Tex.computeBBox img).y1
    (max ((Tex.computeBBox img).x1 - (Tex.computeBBox img).x0 + 1)
         ((Tex.computeBBox img).y1 - (Tex.computeBBox img).y0 + 1))
    hh h0y0 hy01 hy1h (le_max_right _ _)
  have hnw : ¬(img.width = 0 ∨ img.height = 0) := by omega
  have hnc : ¬(src.ctx2dOk = false) := by simp [hctx]
  have hnp : ¬(src.pixelsOk = false) := by simp [hpix]
  have hnb : ¬((Tex.computeBBox img).x1 < (Tex.computeBBox img).x0 ∨
      (Tex.computeBBox img).y1 < (Tex.computeBBox img).y0) := by omega
  refine ⟨targetDiameter_eq,
    fun x y hx hy ho => computeBBox_bounds img x y hx hy ho,
    ⟨xa, hxa, ya, hya, hoa, hexa⟩, ⟨xb, hxb, yb, hyb, hob, heyb⟩,
    ⟨xc, hxc, yc, hyc, hoc, hexc⟩, ⟨xd, hxd, yd, hyd, hod, heyd⟩, ?_, ?_⟩
  · simp only [Tex.normalizeBallTexture, himg]
    simp only [if_neg hnw, if_neg hnc, if_neg hnp, if_neg hnb]
    refine ⟨_, rfl, rfl, rfl, rfl, rfl, rfl, rfl, hcw1, hch1, ?_, rfl, rfl, ?_, ?_, ?_⟩
    · exact max_scaled _ _ hcw1 hch1 Tex.targetDiameter targetDiameter_eq
    · norm_num
    · norm_num
    · show ((Tex.targetDiameter : ℤ) : ℚ) / 2 = 220
      rw [targetDiameter_eq]; norm_num
  · intro src2 hf
    rcases hf with h0 | ⟨img2, heq, hcase⟩
    · simp [Tex.normalizeBallTexture, h0]
    · apply normalize_orig_of_fail src2 img2 heq
      rcases hcase with hwz | hhz | hcf | hpf | hno
      · exact Or.inl hwz
      · exact Or.inr (Or.inl hhz)
      · exact Or.inr (Or.inr (Or.inl hcf))
      · exact Or.inr (Or.inr (Or.inr (Or.inl hpf)))
      · have hemp := computeBBox_empty img2 hno
        exact Or.inr (Or.inr (Or.inr (Or.inr (Or.inl (by omega)))))

/-- Claim C3, counterexample to the claim as stated: a fully opaque 3×1
image has opaque bounding box 3 wide and 1 tall; the crop rectangle the
code draws is `(0, 0, 3, 1)` — 3 wide but only 1 tall, not a square. -/
theorem c3_square_crop_cex :
    Tex.cropRect (Tex.normalizeBallTexture c3Src) = some (0, 0, 3, 1) ∧
    (3 : ℤ) ≠ 1 := by
  constructor
  · norm_num [Tex.normalizeBallTexture, Tex.computeBBox, Tex.scanRows, Tex.scanRow,
      Tex.bboxStep, Tex.cropRect, Tex.alphaThresh, c3Src, c3Image, List.range_succ]
  · decide

/-- Claim C3, witness: the amended statement applied to the 3×1 opaque
image. -/
theorem c3_normalize_texture_witness : Tex.targetDiameter = 440 :=
  (c3_normalize_texture c3Src c3Image rfl (by norm_num [c3Image])
    (by norm_num [c3Image]) rfl rfl
    ⟨0, by norm_num [c3Image], 0, by norm_num [c3Image],
      by norm_num [c3Image, Tex.alphaThresh]⟩).1

/-- Claim C8, witness: with two of six textures loaded and the default
config, the ball count is `min(12, 4) = 4`. -/
theorem c8_overlay_ball_count_witness :
    (Overlay.createBalls (Overlay.mkConfig {})
      (Overlay.loadAllTextures [some 0, none, some 1, none, none, none])
      (fun _ => 0) (fun _ => (0, 0)) (fun _ => (0, 0))).length
      = min (Overlay.mkConfig {}).ballCount
          (Overlay.ballsPerTexture *
            (Overlay.loadAllTextures [some 0, none, some 1, none, none, none]).length) :=
  (c8_overlay_ball_count (Overlay.mkConfig {})
    [some 0, none, some 1, none, none, none]
    (fun _ => 0) (fun _ => (0, 0)) (fun _ => (0, 0)) 0 rfl).1

end Neoball
